import Mathlib

/-!
# Verification of the ploc transitive import-resolution engine

Shallow embedding of the core of the `ploc` code base:

* `src/ploc/type_defs.py` — the data model (`ModulePath`, `ModuleLocation`,
  `NameImport`, `ModuleInterface`) and `is_subpath`;
* `src/ploc/analysis.py` — the per-module interface construction step of
  `get_modules_interfaces`, the chain-unfolding resolver `analyse_import`
  and the plan-building loop of `analyse_module_imports`;
* `src/ploc/caching.py` — the mtime-validated cache lookup
  `_DbmCache.get_interface`;
* `src/ploc/parsing.py` — the name-bind-preservation assertion of
  `_PlocTransformer._filter_import_names`.

Python dicts are embedded as association lists with unique keys (lookup
returns the first match), sets as lists with membership, and exceptions as
explicit error results.  The `while True` loop of `analyse_import` has no
termination guarantee in the source, so it is embedded with explicit fuel:
a `none` result means the loop was still running after the given number of
iterations.  POSIX float timestamps are embedded as integers; only their
ordering matters to the code under study.
-/

/-- A dotted module name, e.g. `["pkg", "sub", "mod"]`; `[]` is the module
of a bare `import x` statement (`type_defs.py`). -/
abbrev ModulePath := List String

/-- `type_defs.is_subpath`: `big` is exactly one segment longer than
`small` and starts with it. -/
def is_subpath (small big : ModulePath) : Bool :=
  big.length == small.length + 1 && big.take small.length == small

/-- Identity of one source module (`type_defs.ModuleLocation`); the
filesystem path is embedded as a string. -/
structure ModuleLocation where
  path : ModulePath
  file : String
  is_init : Bool
deriving DecidableEq, Repr

/-- One imported binding (`type_defs.NameImport`). -/
structure NameImport where
  module : ModulePath
  export_name : String
  import_name : String
deriving DecidableEq, Repr

/-- Facts about one module (`type_defs.ModuleInterface`).  `imported_names`
is a dict keyed by the local bound name; `exported_names` and `submodules`
are sets. -/
structure ModuleInterface where
  location : ModuleLocation
  imported_names : List (String × NameImport)
  exported_names : List String
  submodules : List String
deriving DecidableEq, Repr

/-- Lookup in a string-keyed dict (`dict.get`). -/
def lookupStr (l : List (String × α)) (k : String) : Option α :=
  (l.find? (fun p => p.1 = k)).map (·.2)

/-- The interface map `ModulePath → ModuleInterface` built by the planner. -/
abbrev Interfaces := List (ModulePath × ModuleInterface)

/-- Lookup in the interface map (`interfaces[path]` / `interfaces.get(path)`). -/
def lookupPath (l : Interfaces) (k : ModulePath) : Option ModuleInterface :=
  (l.find? (fun p => p.1 = k)).map (·.2)

/-- The fatal errors of the analysed code (`ValueError` / `AssertionError`
raises), as explicit values. -/
inductive PlocError where
  /-- `analysis.py:77` — referenced first-party module not found. -/
  | unknownModule (module : ModulePath)
  /-- `analysis.py:106` — imported member not found in its source module. -/
  | unresolvedImport (member : String) (module : ModulePath)
  /-- `analysis.py:52` — shadowed export attributes in a package. -/
  | shadowedExports (attrs : List String) (module : ModulePath)
  /-- `parsing.py:152-154` — a replacement would change the local name bind. -/
  | nameBindChanged (old new : NameImport)
deriving DecidableEq, Repr

/-- Outcome of the `while True` loop of `analyse_import`
(`analysis.py:84-96`), for a given amount of fuel. -/
inductive LoopResult where
  /-- The loop ran `break` with this value of the `original_imp` variable. -/
  | exit (original : NameImport)
  /-- The loop ran the early `return` of `analysis.py:89`: the current
  module is an `__init__` re-exporting from a direct submodule. -/
  | packageSurface
  /-- The loop was still running after the given number of iterations. -/
  | outOfFuel
deriving DecidableEq, Repr

/-- The `while True` loop of `analyse_import` (`analysis.py:84-96`).  State:
`original` is the `original_imp` variable, `m` the `_module` variable and
`name` the `_name` variable; `imp` is the (loop-constant) argument of
`analyse_import`. -/
def unfoldLoop (all : Interfaces) (imp : NameImport) :
    Nat → NameImport → ModuleInterface → String → LoopResult
  | 0, _, _, _ => .outOfFuel
  | fuel + 1, original, m, name =>
    match lookupStr m.imported_names name with
    | none => .exit original
    | some next =>
      if m.location.is_init && is_subpath imp.module next.module then
        .packageSurface
      else
        match lookupPath all next.module with
        | none => .exit next
        | some m2 => unfoldLoop all imp fuel next m2 next.export_name

/-- `analysis.analyse_import`, with fuel for its unbounded loop.
`none` means the loop had not finished; `some (.error e)` a raised
`ValueError`; `some (.ok r)` a normal return (`r = none`: no replacement). -/
def analyse_import (all : Interfaces) (imp : NameImport) (fuel : Nat) :
    Option (Except PlocError (Option NameImport)) :=
  match lookupPath all imp.module with
  | none => some (.error (.unknownModule imp.module))
  | some src =>
    match unfoldLoop all imp fuel imp src imp.export_name with
    | .outOfFuel => none
    | .packageSurface => some (.ok none)
    | .exit original =>
      if original ≠ imp then
        some (.ok (some { module := original.module,
                          export_name := original.export_name,
                          import_name := imp.import_name }))
      else if imp.export_name ∈ src.exported_names ∨ imp.export_name ∈ src.submodules then
        some (.ok none)
      else
        some (.error (.unresolvedImport imp.export_name src.location.path))

/-- `k` full iterations of the `while True` loop of `analyse_import`
(`analysis.py:84-96`), starting from state `(original, module, name)`:
`some` is the state the loop is in after `k` iterations in which it
neither broke nor returned, `none` means it broke or returned earlier.
Each iteration advances exactly as `unfoldLoop` does. -/
def loopIter (all : Interfaces) (imp : NameImport) :
    Nat → NameImport × ModuleInterface × String →
    Option (NameImport × ModuleInterface × String)
  | 0, s => some s
  | k + 1, (_, m, name) =>
    match lookupStr m.imported_names name with
    | none => none
    | some next =>
      if m.location.is_init && is_subpath imp.module next.module then
        none
      else
        match lookupPath all next.module with
        | none => none
        | some m2 => loopIter all imp k (next, m2, next.export_name)

/-- `{module_path[0] for module_path in interfaces if module_path}` extended
with the additional package names (`analysis.py:130,153`): in the combined
map every additional-package path already starts with its package name, so
the head segments of the combined map are exactly this set. -/
def first_party_packages (all : Interfaces) : List String :=
  all.filterMap (fun pi => pi.1.head?)

/-- The skip condition of the analysis loop (`analysis.py:159`):
`not imp.module or imp.module[0] not in first_party_packages`. -/
def skip_import (fpp : List String) (imp : NameImport) : Bool :=
  match imp.module with
  | [] => true
  | h :: _ => !(fpp.contains h)

/-- One replacement-plan entry for a module: the dict from original import
to resolved import (`analysis.py:156,172`). -/
abbrev ModuleReplacements := List (NameImport × NameImport)

/-- `ReplacementPlan`: mapping from importing module location to its
replacements, only for modules with at least one replacement. -/
abbrev Plan := List (ModuleLocation × ModuleReplacements)

/-- The inner loop of `analyse_module_imports` (`analysis.py:158-172`) over
the imports of one module: skip non-first-party imports, call
`analyse_import` on the rest, propagate its errors, collect replacements.
`none` propagates fuel exhaustion of `analyse_import`. -/
def analyse_imports_list (all : Interfaces) (fpp : List String)
    (imps : List NameImport) (fuel : Nat) :
    Option (Except PlocError ModuleReplacements) :=
  match imps with
  | [] => some (.ok [])
  | imp :: rest =>
    if skip_import fpp imp then
      analyse_imports_list all fpp rest fuel
    else
      match analyse_import all imp fuel with
      | none => none
      | some (.error e) => some (.error e)
      | some (.ok none) => analyse_imports_list all fpp rest fuel
      | some (.ok (some r)) =>
        match analyse_imports_list all fpp rest fuel with
        | none => none
        | some (.error e) => some (.error e)
        | some (.ok l) => some (.ok ((imp, r) :: l))

/-- The plan-building loop of `analyse_module_imports`
(`analysis.py:155-174`): analyse every import of every scanned module
against the combined map `all`, grouping non-empty replacement sets by
module location.  `scanned` is the primary interface map (additional
packages are in `all` but not scanned). -/
def build_plan (all scanned : Interfaces) (fuel : Nat) :
    Option (Except PlocError Plan) :=
  match scanned with
  | [] => some (.ok [])
  | (_, iface) :: rest =>
    match analyse_imports_list all (first_party_packages all)
        (iface.imported_names.map Prod.snd) fuel with
    | none => none
    | some (.error e) => some (.error e)
    | some (.ok repls) =>
      match build_plan all rest fuel with
      | none => none
      | some (.error e) => some (.error e)
      | some (.ok plan) =>
        some (.ok (if repls.isEmpty then plan else (iface.location, repls) :: plan))

/-- Effect of `parsing.replace_module_imports` on one module interface as
re-extracted afterwards: each import that is a key of the replacement dict
is replaced by its value; local bound names (the dict keys) are unchanged,
since every replacement keeps `import_name` (`parsing.py:148-161,171,190`).
Exports and submodules are untouched (only import statements are edited). -/
def rewrite_imported_names (repls : ModuleReplacements)
    (imported : List (String × NameImport)) : List (String × NameImport) :=
  imported.map (fun p =>
    (p.1, ((repls.find? (fun q => q.1 = p.2)).map (·.2)).getD p.2))

/-- One module interface after the plan has been applied to its file and
the interface re-extracted: `rewrite_imported_names` with the replacements
the plan holds for this module, if any. -/
def rewrite_interface (plan : Plan) (i : ModuleInterface) : ModuleInterface :=
  match plan.find? (fun e => e.1 = i.location) with
  | none => i
  | some e => { i with imported_names := rewrite_imported_names e.2 i.imported_names }

/-- The interface map after the replacement plan has been applied to the
source files and interfaces re-extracted: per-module application of
`rewrite_imported_names` for the modules the plan covers. -/
def rewrite_interfaces (plan : Plan) (all : Interfaces) : Interfaces :=
  all.map (fun pi => (pi.1, rewrite_interface plan pi.2))

/-- Persisted projection of a module interface
(`caching.CachedModuleInterface`); the float timestamp is embedded as an
integer (only its ordering is used). -/
structure CachedModuleInterface where
  imported_names : List (String × NameImport)
  exported_names : List String
  submodules : List String
  timestamp : Int
deriving DecidableEq, Repr

/-- Reconstruction of a module interface from a valid cache entry and the
queried location (`caching.py:69-74`). -/
def reconstruct_interface (loc : ModuleLocation) (c : CachedModuleInterface) :
    ModuleInterface :=
  { location := loc,
    imported_names := c.imported_names,
    exported_names := c.exported_names,
    submodules := c.submodules }

/-- `caching._DbmCache.get_interface` (the `on` / `rebuild` cache modes).
The store maps module paths to entries; `some none` is an entry whose
deserialisation fails (`ValidationError`: purged and treated as absent).
`mtime` gives the current modification time of each file
(`loc.file.stat().st_mtime`). -/
def get_interface (store : List (ModulePath × Option CachedModuleInterface))
    (mtime : String → Int) (loc : ModuleLocation) : Option ModuleInterface :=
  match (store.find? (fun p => p.1 = loc.path)).map (·.2) with
  | none => none
  | some none => none
  | some (some c) =>
    if c.timestamp ≥ mtime loc.file then
      some (reconstruct_interface loc c)
    else
      none

/-- The set of direct-submodule short names of a package
(`analysis.py:50`): `{p[-1] for p in locations if is_subpath(loc.path, p)}`. -/
def submodules_of (locations : List ModulePath) (path : ModulePath) : List String :=
  locations.filterMap (fun p => if is_subpath path p then p.getLast? else none)

/-- The per-module interface construction step of `get_modules_interfaces`
(`analysis.py:46-64`) on a cache miss, with the extraction output
(`imported_names`, `exported_names`) passed in: for packages, compute the
submodules, fail on shadowed export attributes, and drop imports whose
export name is a submodule name. -/
def make_module_interface (locations : List ModulePath) (loc : ModuleLocation)
    (imported_names : List (String × NameImport)) (exported_names : List String) :
    Except PlocError ModuleInterface :=
  if loc.is_init then
    let submodules := submodules_of locations loc.path
    let shadowed_attrs := submodules.filter (fun s => s ∈ exported_names)
    if shadowed_attrs.isEmpty then
      .ok { location := loc,
            imported_names :=
              imported_names.filter (fun p => p.2.export_name ∉ submodules),
            exported_names := exported_names,
            submodules := submodules }
    else
      .error (.shadowedExports shadowed_attrs loc.path)
  else
    .ok { location := loc,
          imported_names := imported_names,
          exported_names := exported_names,
          submodules := [] }

/-- `dict.pop(key, None)` on the `_imports_changes` dict of
`_PlocTransformer` (`parsing.py:151`): the found value, if any, and the
dict without that key. -/
def popChange (changes : ModuleReplacements) (k : NameImport) :
    Option NameImport × ModuleReplacements :=
  match changes with
  | [] => (none, [])
  | (o, n) :: rest =>
    if o = k then (some n, rest)
    else
      let r := popChange rest k
      (r.1, (o, n) :: r.2)

/-- `_PlocTransformer._filter_import_names` (`parsing.py:144-161`).  Each
alias of one import statement is embedded as the `NameImport` that
`_alias_to_name_import` yields for it (`none` for `import x.y` aliases,
which bind no name).  Returns the kept aliases, the imports to create and
the remaining changes dict; the `assert` of `parsing.py:152-154` becomes a
`nameBindChanged` error. -/
def filter_import_names (changes : ModuleReplacements)
    (names : List (Option NameImport)) :
    Except PlocError (List (Option NameImport) × List NameImport × ModuleReplacements) :=
  match names with
  | [] => .ok ([], [], changes)
  | a :: rest =>
    match a with
    | none =>
      match filter_import_names changes rest with
      | .error e => .error e
      | .ok (keep, create, changes2) => .ok (none :: keep, create, changes2)
    | some ni =>
      match popChange changes ni with
      | (none, changes1) =>
        match filter_import_names changes1 rest with
        | .error e => .error e
        | .ok (keep, create, changes2) => .ok (some ni :: keep, create, changes2)
      | (some repl, changes1) =>
        if repl.import_name = ni.import_name then
          match filter_import_names changes1 rest with
          | .error e => .error e
          | .ok (keep, create, changes2) => .ok (keep, repl :: create, changes2)
        else
          .error (.nameBindChanged ni repl)

/-! ## Concrete instances

Small interface maps used to instantiate the theorems below.  They follow
the scenarios of the specification: the chain-collapsing example
(`a.b` defines `X`; `a.c` re-exports it; `a.d` imports it from `a.c`), the
package re-export example (`from a import X` where the `__init__` of `a`
imports `X` from `a.b`), a two-module cyclic re-export, and a package whose
`__init__` holds an indirect import of its own. -/

/-- `a.b`: defines `X`. -/
def abIface : ModuleInterface :=
  { location := { path := ["a", "b"], file := "a/b.py", is_init := false },
    imported_names := [],
    exported_names := ["X"],
    submodules := [] }

/-- `a.c`: `from a.b import X`. -/
def acIface : ModuleInterface :=
  { location := { path := ["a", "c"], file := "a/c.py", is_init := false },
    imported_names := [("X", ⟨["a", "b"], "X", "X"⟩)],
    exported_names := [],
    submodules := [] }

/-- `a.d`: `from a.c import X`. -/
def adIface : ModuleInterface :=
  { location := { path := ["a", "d"], file := "a/d.py", is_init := false },
    imported_names := [("X", ⟨["a", "c"], "X", "X"⟩)],
    exported_names := [],
    submodules := [] }

/-- The chain-collapsing interface map. -/
def chainAll : Interfaces :=
  [(["a", "b"], abIface), (["a", "c"], acIface), (["a", "d"], adIface)]

/-- The import of `a.d` in the chain-collapsing map. -/
def chainImp : NameImport := ⟨["a", "c"], "X", "X"⟩

/-- Package `a`: its `__init__` does `from a.b import X`; submodule `b`. -/
def pkgAIface : ModuleInterface :=
  { location := { path := ["a"], file := "a/__init__.py", is_init := true },
    imported_names := [("X", ⟨["a", "b"], "X", "X"⟩)],
    exported_names := [],
    submodules := ["b"] }

/-- `m`: `from a import X` through the package surface. -/
def mIface : ModuleInterface :=
  { location := { path := ["m"], file := "m.py", is_init := false },
    imported_names := [("X", ⟨["a"], "X", "X"⟩)],
    exported_names := [],
    submodules := [] }

/-- The package re-export interface map: `m`, package `a`, `a.b`. -/
def pkgAll : Interfaces :=
  [(["m"], mIface), (["a"], pkgAIface), (["a", "b"], abIface)]

/-- Package `p` of the mid-chain surface scenario: its `__init__` does
`from q import X`; submodule `s`. -/
def c3pIface : ModuleInterface :=
  { location := { path := ["p"], file := "p/__init__.py", is_init := true },
    imported_names := [("X", ⟨["q"], "X", "X"⟩)],
    exported_names := [],
    submodules := ["s"] }

/-- Package `q` of the mid-chain surface scenario: its `__init__` does
`from p.s import X` — a direct submodule path of `p`, the source module of
the analysed import. -/
def c3qIface : ModuleInterface :=
  { location := { path := ["q"], file := "q/__init__.py", is_init := true },
    imported_names := [("X", ⟨["p", "s"], "X", "X"⟩)],
    exported_names := [],
    submodules := [] }

/-- `p.s` of the mid-chain surface scenario: defines `X`. -/
def c3psIface : ModuleInterface :=
  { location := { path := ["p", "s"], file := "p/s.py", is_init := false },
    imported_names := [],
    exported_names := ["X"],
    submodules := [] }

/-- The mid-chain surface interface map: analysing `from p import X` hops
through `q` first and only then meets the package-surface rule. -/
def c3MidAll : Interfaces :=
  [(["p"], c3pIface), (["q"], c3qIface), (["p", "s"], c3psIface)]

/-- Primary module `m` of the additional-package error scenario:
`from extra import X`. -/
def exErrMIface : ModuleInterface :=
  { location := { path := ["m"], file := "m.py", is_init := false },
    imported_names := [("X", ⟨["extra"], "X", "X"⟩)],
    exported_names := [],
    submodules := [] }

/-- Additional (unscanned) package `extra`: its `__init__` does
`from extra2 import Y as X`, but `extra2` never provides `Y` — a latent
bug the first run cannot see because `extra` is not scanned. -/
def exErrExtraIface : ModuleInterface :=
  { location := { path := ["extra"], file := "extra/__init__.py", is_init := true },
    imported_names := [("X", ⟨["extra2"], "Y", "X"⟩)],
    exported_names := [],
    submodules := [] }

/-- Additional (unscanned) empty package `extra2`. -/
def exErrExtra2Iface : ModuleInterface :=
  { location := { path := ["extra2"], file := "extra2/__init__.py", is_init := true },
    imported_names := [],
    exported_names := [],
    submodules := [] }

/-- Combined interface map of the additional-package error scenario. -/
def exErrAll : Interfaces :=
  [(["m"], exErrMIface), (["extra"], exErrExtraIface), (["extra2"], exErrExtra2Iface)]

/-- Scanned (primary) part of the additional-package error scenario. -/
def exErrScanned : Interfaces := [(["m"], exErrMIface)]

/-- First-run plan of the additional-package error scenario: the import of
`m` is redirected to `from extra2 import Y as X`. -/
def exErrPlan : Plan :=
  [({ path := ["m"], file := "m.py", is_init := false },
    [(⟨["extra"], "X", "X"⟩, ⟨["extra2"], "Y", "X"⟩)])]

/-- Module `a` of the cyclic map: `from b import x`. -/
def cycAIface : ModuleInterface :=
  { location := { path := ["a"], file := "a.py", is_init := false },
    imported_names := [("x", ⟨["b"], "x", "x"⟩)],
    exported_names := [],
    submodules := [] }

/-- Module `b` of the cyclic map: `from a import x`. -/
def cycBIface : ModuleInterface :=
  { location := { path := ["b"], file := "b.py", is_init := false },
    imported_names := [("x", ⟨["a"], "x", "x"⟩)],
    exported_names := [],
    submodules := [] }

/-- Two known modules re-exporting `x` from each other. -/
def cycAll : Interfaces := [(["a"], cycAIface), (["b"], cycBIface)]

/-- The cyclic import under analysis: `from a import x`. -/
def cycImp : NameImport := ⟨["a"], "x", "x"⟩

/-- Package `a` of the idempotence scenario: `__init__` does
`from a.b import X`; submodules `b` and `c`. -/
def ex4AIface : ModuleInterface :=
  { location := { path := ["a"], file := "a/__init__.py", is_init := true },
    imported_names := [("X", ⟨["a", "b"], "X", "X"⟩)],
    exported_names := [],
    submodules := ["b", "c"] }

/-- `a.b` of the idempotence scenario: `from a.c.d import X`. -/
def ex4ABIface : ModuleInterface :=
  { location := { path := ["a", "b"], file := "a/b.py", is_init := false },
    imported_names := [("X", ⟨["a", "c", "d"], "X", "X"⟩)],
    exported_names := [],
    submodules := [] }

/-- Package `a.c` of the idempotence scenario: empty `__init__`. -/
def ex4ACIface : ModuleInterface :=
  { location := { path := ["a", "c"], file := "a/c/__init__.py", is_init := true },
    imported_names := [],
    exported_names := [],
    submodules := ["d"] }

/-- `a.c.d` of the idempotence scenario: defines `X`. -/
def ex4ACDIface : ModuleInterface :=
  { location := { path := ["a", "c", "d"], file := "a/c/d.py", is_init := false },
    imported_names := [],
    exported_names := ["X"],
    submodules := [] }

/-- The idempotence-scenario interface map: `m` imports `X` through the
surface of package `a`, whose `__init__` holds an indirect import. -/
def ex4All : Interfaces :=
  [(["m"], mIface),
   (["a"], ex4AIface),
   (["a", "b"], ex4ABIface),
   (["a", "c"], ex4ACIface),
   (["a", "c", "d"], ex4ACDIface)]

/-- The first-run plan of the idempotence scenario: the indirect import of
the `__init__` of `a` is collapsed to `a.c.d`. -/
def ex4Plan : Plan :=
  [({ path := ["a"], file := "a/__init__.py", is_init := true },
    [(⟨["a", "b"], "X", "X"⟩, ⟨["a", "c", "d"], "X", "X"⟩)])]

/-- The second-run plan of the idempotence scenario: after the rewrite,
the import of `m` through the surface of `a` is flagged. -/
def ex4Plan2 : Plan :=
  [({ path := ["m"], file := "m.py", is_init := false },
    [(⟨["a"], "X", "X"⟩, ⟨["a", "c", "d"], "X", "X"⟩)])]

/-- `a.b` exports only `X` and `Y` (unresolvable-import scenario). -/
def c6ABIface : ModuleInterface :=
  { location := { path := ["a", "b"], file := "a/b.py", is_init := false },
    imported_names := [],
    exported_names := ["X", "Y"],
    submodules := [] }

/-- Interface map of the unresolvable-import scenario. -/
def c6All : Interfaces := [(["a", "b"], c6ABIface)]

/-- `from a.b import DoesNotExist`. -/
def c6Imp : NameImport := ⟨["a", "b"], "DoesNotExist", "DoesNotExist"⟩

/-- A parsing cache entry stored with timestamp 100. -/
def c7Entry : CachedModuleInterface :=
  { imported_names := [("X", ⟨["a", "b"], "X", "X"⟩)],
    exported_names := ["Y"],
    submodules := [],
    timestamp := 100 }

/-- A cache store holding `c7Entry` under the path of `a.c`. -/
def c7Store : List (ModulePath × Option CachedModuleInterface) :=
  [(["a", "c"], some c7Entry)]

/-- The queried location of the cache scenario. -/
def c7Loc : ModuleLocation := { path := ["a", "c"], file := "a/c.py", is_init := false }

/-- Locations of the shadowing scenario: package `p` with submodule `util`. -/
def c8Locations : List ModulePath := [["p"], ["p", "util"]]

/-- The location of package `p`. -/
def c8Loc : ModuleLocation := { path := ["p"], file := "p/__init__.py", is_init := true }

/-- The location of package `a` in the submodule-import-dropping scenario. -/
def c9Loc : ModuleLocation := { path := ["a"], file := "a/__init__.py", is_init := true }

/-- Locations of the submodule-import-dropping scenario. -/
def c9Locations : List ModulePath := [["a"], ["a", "b"]]

/-- Extraction output of the `__init__` of `a`: it imports its own
submodule `b` and an unrelated name `Z`. -/
def c9Imported : List (String × NameImport) :=
  [("b", ⟨[], "b", "b"⟩), ("Z", ⟨["q"], "Z", "Z"⟩)]

/-- The plan of the chain-collapsing map: the import of `a.d` is replaced
by the direct import from `a.b`. -/
def chainPlan : Plan :=
  [({ path := ["a", "d"], file := "a/d.py", is_init := false },
    [(chainImp, ⟨["a", "b"], "X", "X"⟩)])]

/-- The interface the `__init__` of `a` gets in the submodule-import
scenario: the import of submodule `b` has been dropped. -/
def c9Iface : ModuleInterface :=
  { location := c9Loc,
    imported_names := [("Z", ⟨["q"], "Z", "Z"⟩)],
    exported_names := [],
    submodules := ["b"] }

/-- The changes dict of the rewriter scenario. -/
def c10Changes : ModuleReplacements :=
  [(⟨["a", "c"], "X", "X"⟩, ⟨["a", "b"], "X", "X"⟩)]

/-- The aliases of one import statement of the rewriter scenario. -/
def c10Names : List (Option NameImport) :=
  [some ⟨["a", "c"], "X", "X"⟩, some ⟨["a", "c"], "Y", "Y"⟩, none]

deriving instance DecidableEq for Except

/-! ## Lemmas -/

/-- Unfolding of `lookupStr` on a cons cell. -/
theorem lookupStr_cons (p : String × α) (rest : List (String × α)) (k : String) :
    lookupStr (p :: rest) k = if p.1 = k then some p.2 else lookupStr rest k := by
  by_cases h : p.1 = k <;> simp [lookupStr, List.find?, h]

/-- Unfolding of `lookupPath` on a cons cell. -/
theorem lookupPath_cons (p : ModulePath × ModuleInterface) (rest : Interfaces)
    (k : ModulePath) :
    lookupPath (p :: rest) k = if p.1 = k then some p.2 else lookupPath rest k := by
  by_cases h : p.1 = k <;> simp [lookupPath, List.find?, h]

/-- Loop invariant of `unfoldLoop`: whenever the state module is the
interface of the state import and the state name its export name, a `break`
leaves `original_imp` pointing at a module/name pair that the interface map
does not record as a re-export. -/
theorem unfoldLoop_exit_not_reexport (all : Interfaces) (imp : NameImport) :
    ∀ (fuel : Nat) (o : NameImport) (m : ModuleInterface) (o' : NameImport),
      lookupPath all o.module = some m →
      unfoldLoop all imp fuel o m o.export_name = .exit o' →
      ∀ M, lookupPath all o'.module = some M →
        lookupStr M.imported_names o'.export_name = none := by
  intro fuel
  induction fuel with
  | zero =>
    intro o m o' _ h
    simp [unfoldLoop] at h
  | succ n ih =>
    intro o m o' hm h M hM
    simp only [unfoldLoop] at h
    split at h
    · next hl =>
        cases h
        rw [hm] at hM
        cases hM
        exact hl
    · next next hl =>
        split at h
        · exact absurd h (by simp)
        · split at h
          · next hn =>
              cases h
              rw [hn] at hM
              cases hM
          · next m2 hn =>
              exact ih next m2 o' hn h M hM

/-- Running the loop with `k + fuel` fuel from a state from which it
completes `k` full iterations without breaking or returning is the same as
running it with `fuel` from the state reached. -/
theorem unfoldLoop_after_iter (all : Interfaces) (imp : NameImport) :
    ∀ (k fuel : Nat) (o : NameImport) (m : ModuleInterface) (name : String)
      (o2 : NameImport) (m2 : ModuleInterface) (name2 : String),
      loopIter all imp k (o, m, name) = some (o2, m2, name2) →
      unfoldLoop all imp (k + fuel) o m name = unfoldLoop all imp fuel o2 m2 name2 := by
  intro k
  induction k with
  | zero =>
    intro fuel o m name o2 m2 name2 h
    simp only [loopIter, Option.some.injEq, Prod.mk.injEq] at h
    obtain ⟨h1, h2, h3⟩ := h
    subst h1
    subst h2
    subst h3
    simp
  | succ n ih =>
    intro fuel o m name o2 m2 name2 h
    simp only [loopIter] at h
    split at h
    · exact absurd h (by simp)
    · next next hl =>
      split at h
      · exact absurd h (by simp)
      · next hsurf =>
        split at h
        · exact absurd h (by simp)
        · next mn hmn =>
          have harith : n + 1 + fuel = (n + fuel) + 1 := by omega
          rw [harith]
          have hstep : unfoldLoop all imp ((n + fuel) + 1) o m name =
              unfoldLoop all imp (n + fuel) next mn next.export_name := by
            simp only [unfoldLoop, hl, hmn]
            rw [if_neg hsurf]
          rw [hstep]
          exact ih fuel next mn next.export_name o2 m2 name2 h

/-- Characterisation of a replacement result of `analyse_import`: the
source module is known, the loop broke with some `original_imp` different
from the analysed import, and the replacement is built from its module and
export name with the local bound name of the analysed import. -/
theorem analyse_import_repl_spec (all : Interfaces) (imp : NameImport) (fuel : Nat)
    (R : NameImport) (h : analyse_import all imp fuel = some (.ok (some R))) :
    R.import_name = imp.import_name ∧
    ∃ src o, lookupPath all imp.module = some src ∧
      unfoldLoop all imp fuel imp src imp.export_name = .exit o ∧ o ≠ imp ∧
      R.module = o.module ∧ R.export_name = o.export_name := by
  unfold analyse_import at h
  split at h
  · simp at h
  · next src hs =>
    split at h
    · simp at h
    · simp at h
    · next o hl =>
      split at h
      · next ho =>
          simp only [Option.some.injEq, Except.ok.injEq] at h
          subst h
          exact ⟨rfl, src, o, hs, hl, ho, rfl, rfl⟩
      · split at h <;> simp at h

/-- Every pair collected by the per-module analysis loop is a replacement
returned by `analyse_import` for that import. -/
theorem analyse_imports_list_mem (all : Interfaces) (fpp : List String) (fuel : Nat) :
    ∀ (imps : List NameImport) (l : ModuleReplacements),
      analyse_imports_list all fpp imps fuel = some (.ok l) →
      ∀ q ∈ l, analyse_import all q.1 fuel = some (.ok (some q.2)) := by
  intro imps
  induction imps with
  | nil =>
    intro l h q hq
    simp only [analyse_imports_list, Option.some.injEq, Except.ok.injEq] at h
    subst h
    simp at hq
  | cons imp rest ih =>
    intro l h q hq
    simp only [analyse_imports_list] at h
    split at h
    · exact ih l h q hq
    · split at h
      · simp at h
      · simp at h
      · exact ih l h q hq
      · next r ha =>
          split at h
          · simp at h
          · simp at h
          · next l2 h2 =>
              simp only [Option.some.injEq, Except.ok.injEq] at h
              subst h
              rw [List.mem_cons] at hq
              rcases hq with hq | hq
              · subst hq
                exact ha
              · exact ih l2 h2 q hq

/-- Every replacement recorded in the plan built by the analysis loop of
`analyse_module_imports` is a replacement returned by `analyse_import`. -/
theorem build_plan_mem (all : Interfaces) (fuel : Nat) :
    ∀ (scanned : Interfaces) (P : Plan),
      build_plan all scanned fuel = some (.ok P) →
      ∀ e ∈ P, ∀ q ∈ e.2, analyse_import all q.1 fuel = some (.ok (some q.2)) := by
  intro scanned
  induction scanned with
  | nil =>
    intro P h e he
    simp only [build_plan, Option.some.injEq, Except.ok.injEq] at h
    subst h
    simp at he
  | cons pi rest ih =>
    intro P h e he q hq
    simp only [build_plan] at h
    split at h
    · simp at h
    · simp at h
    · next repls ha =>
        split at h
        · simp at h
        · simp at h
        · next plan hp =>
            simp only [Option.some.injEq, Except.ok.injEq] at h
            subst h
            split at he
            · exact ih plan hp e he q hq
            · rw [List.mem_cons] at he
              rcases he with he | he
              · subst he
                exact analyse_imports_list_mem all (first_party_packages all) fuel
                  (pi.2.imported_names.map Prod.snd) repls ha q hq
              · exact ih plan hp e he q hq

/-- `rewrite_imported_names` only changes dict values: a key resolves to
nothing after the rewrite exactly when it did before. -/
theorem lookupStr_rewrite_none (repls : ModuleReplacements)
    (l : List (String × NameImport)) (k : String) :
    lookupStr (rewrite_imported_names repls l) k = none ↔ lookupStr l k = none := by
  induction l with
  | nil => simp [rewrite_imported_names, lookupStr]
  | cons p rest ih =>
    have hstep : rewrite_imported_names repls (p :: rest) =
        (p.1, ((repls.find? (fun q => q.1 = p.2)).map (·.2)).getD p.2) ::
          rewrite_imported_names repls rest := rfl
    rw [hstep, lookupStr_cons, lookupStr_cons p rest k]
    by_cases hk : p.1 = k
    · simp [hk]
    · simpa [hk] using ih

/-- `rewrite_interface` leaves location, exports and submodules unchanged
and preserves the key set of `imported_names`. -/
theorem rewrite_interface_spec (plan : Plan) (i : ModuleInterface) :
    (rewrite_interface plan i).location = i.location ∧
    (rewrite_interface plan i).exported_names = i.exported_names ∧
    (rewrite_interface plan i).submodules = i.submodules ∧
    ∀ k, (lookupStr (rewrite_interface plan i).imported_names k = none ↔
          lookupStr i.imported_names k = none) := by
  unfold rewrite_interface
  split
  · exact ⟨rfl, rfl, rfl, fun k => Iff.rfl⟩
  · exact ⟨rfl, rfl, rfl, fun k => lookupStr_rewrite_none _ _ k⟩

/-- A module found in the rewritten interface map comes from the same
module in the original map, with unchanged location, exports, submodules
and import keys. -/
theorem lookupPath_rewrite (plan : Plan) (all : Interfaces) (p : ModulePath)
    (M' : ModuleInterface)
    (h : lookupPath (rewrite_interfaces plan all) p = some M') :
    ∃ M, lookupPath all p = some M ∧
      M'.location = M.location ∧
      M'.exported_names = M.exported_names ∧
      M'.submodules = M.submodules ∧
      ∀ k, (lookupStr M'.imported_names k = none ↔
            lookupStr M.imported_names k = none) := by
  induction all with
  | nil => simp [rewrite_interfaces, lookupPath, List.find?] at h
  | cons q rest ih =>
    have hstep : rewrite_interfaces plan (q :: rest) =
        (q.1, rewrite_interface plan q.2) :: rewrite_interfaces plan rest := rfl
    rw [hstep, lookupPath_cons] at h
    rw [lookupPath_cons q rest p]
    by_cases hq : q.1 = p
    · rw [if_pos hq] at h
      rw [if_pos hq]
      cases h
      exact ⟨q.2, rfl, (rewrite_interface_spec plan q.2).1,
        (rewrite_interface_spec plan q.2).2.1,
        (rewrite_interface_spec plan q.2).2.2.1,
        (rewrite_interface_spec plan q.2).2.2.2⟩
    · rw [if_neg hq] at h
      rw [if_neg hq]
      exact ih h

/-- Evaluation of `analyse_import` when the export name is not a key of
the source module dict of imported names: the loop breaks at once and the
face-value validation decides the outcome. -/
theorem analyse_import_no_hop (all : Interfaces) (imp : NameImport)
    (src : ModuleInterface) (fuel : Nat)
    (hs : lookupPath all imp.module = some src)
    (hl : lookupStr src.imported_names imp.export_name = none) :
    analyse_import all imp (fuel + 1) =
      (if imp.export_name ∈ src.exported_names ∨ imp.export_name ∈ src.submodules then
        some (.ok none)
      else
        some (.error (.unresolvedImport imp.export_name src.location.path))) := by
  have hloop : unfoldLoop all imp (fuel + 1) imp src imp.export_name = .exit imp := by
    simp only [unfoldLoop, hl]
  simp [analyse_import, hs, hloop]

/-- In the cyclic two-module map, the walk alternates between two loop
states and consumes all the fuel. -/
theorem cycLoop (fuel : Nat) :
    unfoldLoop cycAll cycImp fuel ⟨["a"], "x", "x"⟩ cycAIface "x" = .outOfFuel ∧
    unfoldLoop cycAll cycImp fuel ⟨["b"], "x", "x"⟩ cycBIface "x" = .outOfFuel := by
  induction fuel with
  | zero => exact ⟨rfl, rfl⟩
  | succ n ih =>
    refine ⟨?_, ?_⟩
    · rw [show unfoldLoop cycAll cycImp (n + 1) ⟨["a"], "x", "x"⟩ cycAIface "x" =
            unfoldLoop cycAll cycImp n ⟨["b"], "x", "x"⟩ cycBIface "x" from rfl]
      exact ih.2
    · rw [show unfoldLoop cycAll cycImp (n + 1) ⟨["b"], "x", "x"⟩ cycBIface "x" =
            unfoldLoop cycAll cycImp n ⟨["a"], "x", "x"⟩ cycAIface "x" from rfl]
      exact ih.1

/-! ## Claims -/

/-- Claim C1: for every module M in the replacement plan and every import I
with an entry `plan[M][I] = R`, R points to a module/name pair that is not
itself a re-export: if `R.module` is present in the interface map, then
`R.export_name` is not a key of the imported names of that module. -/
theorem C1_plan_replacement_not_reexport (all scanned : Interfaces) (fuel : Nat)
    (P : Plan) (e : ModuleLocation × ModuleReplacements) (q : NameImport × NameImport)
    (M : ModuleInterface)
    (hplan : build_plan all scanned fuel = some (.ok P))
    (he : e ∈ P) (hq : q ∈ e.2)
    (hM : lookupPath all q.2.module = some M) :
    lookupStr M.imported_names q.2.export_name = none := by
  have h := build_plan_mem all fuel scanned P hplan e he q hq
  obtain ⟨-, src, o, hs, hloop, -, hmod, hexp⟩ :=
    analyse_import_repl_spec all q.1 fuel q.2 h
  rw [hmod] at hM
  rw [hexp]
  exact unfoldLoop_exit_not_reexport all q.1 fuel q.1 src o hs hloop M hM

/-- Witness for C1 on the chain-collapsing map: the plan replaces
the import of `a.d` by `from a.b import X`, and `X` is not an imported name of
`a.b`. -/
theorem C1_plan_replacement_not_reexport_witness :
    build_plan chainAll chainAll 9 = some (.ok chainPlan) ∧
    lookupStr abIface.imported_names "X" = none :=
  ⟨rfl,
   C1_plan_replacement_not_reexport chainAll chainAll 9 chainPlan
     ({ path := ["a", "d"], file := "a/d.py", is_init := false },
      [(chainImp, ⟨["a", "b"], "X", "X"⟩)])
     (chainImp, ⟨["a", "b"], "X", "X"⟩) abIface rfl (by decide) (by decide) rfl⟩

/-- Claim C2: whenever `analyse_import` returns a replacement, the loop
broke with a last import `o` different from the analysed import, the
replacement uses the module and export name of `o`, and its `import_name`
is the `import_name` of the analysed import. -/
theorem C2_replacement_last_import_preserves_name (all : Interfaces)
    (imp R : NameImport) (fuel : Nat)
    (h : analyse_import all imp fuel = some (.ok (some R))) :
    R.import_name = imp.import_name ∧
    ∃ src o, lookupPath all imp.module = some src ∧
      unfoldLoop all imp fuel imp src imp.export_name = .exit o ∧ o ≠ imp ∧
      R.module = o.module ∧ R.export_name = o.export_name :=
  analyse_import_repl_spec all imp fuel R h

/-- Witness for C2 on the chain-collapsing map: the replacement for
the import of `a.d` keeps its local bound name. -/
theorem C2_replacement_last_import_preserves_name_witness :
    analyse_import chainAll chainImp 9 = some (.ok (some ⟨["a", "b"], "X", "X"⟩)) ∧
    (⟨["a", "b"], "X", "X"⟩ : NameImport).import_name = chainImp.import_name :=
  ⟨rfl, (C2_replacement_last_import_preserves_name chainAll chainImp
    ⟨["a", "b"], "X", "X"⟩ 9 rfl).1⟩

/-- Claim C3: during unfolding — at any iteration of the loop, whatever
state it has reached — if the current module is a package and the
candidate next import points into a direct submodule path of the source
module of the original import, `analyse_import` stops and returns no
replacement. -/
theorem C3_package_surface_no_replacement (all : Interfaces) (imp next : NameImport)
    (src m : ModuleInterface) (o : NameImport) (name : String) (k fuel : Nat)
    (hs : lookupPath all imp.module = some src)
    (hreach : loopIter all imp k (imp, src, imp.export_name) = some (o, m, name))
    (hinit : m.location.is_init = true)
    (hnext : lookupStr m.imported_names name = some next)
    (hsub : is_subpath imp.module next.module = true) :
    analyse_import all imp (k + (fuel + 1)) = some (.ok none) := by
  have hfire : unfoldLoop all imp (fuel + 1) o m name = .packageSurface := by
    simp only [unfoldLoop, hnext, hinit, hsub]
    simp
  have hloop : unfoldLoop all imp (k + (fuel + 1)) imp src imp.export_name =
      .packageSurface := by
    rw [unfoldLoop_after_iter all imp k (fuel + 1) imp src imp.export_name o m name hreach]
    exact hfire
  simp [analyse_import, hs, hloop]

/-- Witness for C3, covering the rule firing at the first iteration
(package `a` re-exports `X` from its submodule `a.b`; `from a import X` in
module `m` is not flagged) and in mid-chain (analysing `from p import X`
first hops into package `q`, whose own import targets `p.s`, one segment
below `p`: the rule fires at the second iteration). -/
theorem C3_package_surface_no_replacement_witness :
    lookupStr pkgAIface.imported_names "X" = some ⟨["a", "b"], "X", "X"⟩ ∧
    analyse_import pkgAll ⟨["a"], "X", "X"⟩ 1 = some (.ok none) ∧
    loopIter c3MidAll ⟨["p"], "X", "X"⟩ 1 (⟨["p"], "X", "X"⟩, c3pIface, "X") =
      some (⟨["q"], "X", "X"⟩, c3qIface, "X") ∧
    analyse_import c3MidAll ⟨["p"], "X", "X"⟩ 2 = some (.ok none) :=
  ⟨rfl,
   C3_package_surface_no_replacement pkgAll ⟨["a"], "X", "X"⟩ ⟨["a", "b"], "X", "X"⟩
     pkgAIface pkgAIface ⟨["a"], "X", "X"⟩ "X" 0 0 rfl rfl rfl rfl rfl,
   rfl,
   C3_package_surface_no_replacement c3MidAll ⟨["p"], "X", "X"⟩ ⟨["p", "s"], "X", "X"⟩
     c3pIface c3qIface ⟨["q"], "X", "X"⟩ "X" 1 0 rfl rfl rfl rfl rfl⟩

/-- Counterexample to claim C4 as stated, in both of its parts.  First, a
run whose plan rewrites only the indirect import inside the `__init__` of
package `a`: rerunning the analysis on the rewritten interfaces yields a
NON-empty plan, because the import of module `m` through the package
surface of `a`, accepted in the first run, is now flagged.  Second, a run
over a primary module plus two unscanned additional packages, where the
first run succeeds but its replacement points at a member the target
module does not provide: the second run raises `UnresolvedImportError`
instead of producing an empty plan, so re-resolution is not error-free
either. -/
theorem C4_second_run_not_clean_counterexample :
    (build_plan ex4All ex4All 9 = some (.ok ex4Plan) ∧
     build_plan (rewrite_interfaces ex4Plan ex4All) (rewrite_interfaces ex4Plan ex4All) 9 =
       some (.ok ex4Plan2) ∧
     ex4Plan2 ≠ []) ∧
    (build_plan exErrAll exErrScanned 9 = some (.ok exErrPlan) ∧
     build_plan (rewrite_interfaces exErrPlan exErrAll)
       (rewrite_interfaces exErrPlan exErrScanned) 9 =
       some (.error (.unresolvedImport "Y" ["extra2"]))) :=
  ⟨⟨rfl, rfl, by decide⟩, rfl, rfl⟩

/-- Claim C4 (amended): every replacement R of the plan is individually
stable — resolving R against the post-rewrite interface map never yields a
further replacement, and returns exactly no replacement (without error)
whenever the target module of R is in the map and holds the export name of
R among its exported names or submodules.  The second run as a whole,
however, need not produce an empty plan (see the counterexample). -/
theorem C4_plan_replacements_individually_stable (all : Interfaces) (plan : Plan)
    (imp R : NameImport) (fuel f2 : Nat)
    (h : analyse_import all imp fuel = some (.ok (some R))) :
    (∀ r, analyse_import (rewrite_interfaces plan all) R (f2 + 1) ≠ some (.ok (some r))) ∧
    (∀ M', lookupPath (rewrite_interfaces plan all) R.module = some M' →
      R.export_name ∈ M'.exported_names ∨ R.export_name ∈ M'.submodules →
      analyse_import (rewrite_interfaces plan all) R (f2 + 1) = some (.ok none)) := by
  obtain ⟨-, src, o, hs, hloop, -, hmod, hexp⟩ :=
    analyse_import_repl_spec all imp fuel R h
  have hinv := unfoldLoop_exit_not_reexport all imp fuel imp src o hs hloop
  have key : ∀ M', lookupPath (rewrite_interfaces plan all) R.module = some M' →
      lookupStr M'.imported_names R.export_name = none := by
    intro M' hM'
    obtain ⟨M, hM, -, -, -, hkeys⟩ := lookupPath_rewrite plan all R.module M' hM'
    rw [hmod] at hM
    have hMnone : lookupStr M.imported_names R.export_name = none := by
      rw [hexp]
      exact hinv M hM
    exact (hkeys R.export_name).mpr hMnone
  refine ⟨?_, ?_⟩
  · intro r hr
    cases hM' : lookupPath (rewrite_interfaces plan all) R.module with
    | none =>
      rw [show analyse_import (rewrite_interfaces plan all) R (f2 + 1) =
            some (.error (.unknownModule R.module)) from by
          simp [analyse_import, hM']] at hr
      simp at hr
    | some M' =>
      rw [analyse_import_no_hop (rewrite_interfaces plan all) R M' f2 hM' (key M' hM')] at hr
      split at hr <;> simp at hr
  · intro M' hM' hmem
    rw [analyse_import_no_hop (rewrite_interfaces plan all) R M' f2 hM' (key M' hM'),
      if_pos hmem]

/-- Witness for the amended C4 on the chain-collapsing map: the
replacement `from a.b import X` resolves to no replacement against the
rewritten interfaces. -/
theorem C4_plan_replacements_individually_stable_witness :
    analyse_import chainAll chainImp 9 = some (.ok (some ⟨["a", "b"], "X", "X"⟩)) ∧
    analyse_import (rewrite_interfaces chainPlan chainAll) ⟨["a", "b"], "X", "X"⟩ 1 =
      some (.ok none) :=
  ⟨rfl,
   (C4_plan_replacements_individually_stable chainAll chainPlan chainImp
     ⟨["a", "b"], "X", "X"⟩ 9 0 rfl).2 abIface rfl (by decide)⟩

/-- Claim C5: the unfolding loop has no cycle detection: on the two-module
cyclic interface map it never terminates — `analyse_import` is still
looping whatever fuel it is given. -/
theorem C5_cyclic_reexport_no_termination :
    ∀ fuel : Nat, analyse_import cycAll cycImp fuel = none := by
  intro fuel
  have h : unfoldLoop cycAll cycImp fuel cycImp cycAIface cycImp.export_name = .outOfFuel :=
    (cycLoop fuel).1
  simp [analyse_import, show lookupPath cycAll cycImp.module = some cycAIface from rfl, h]

/-- Claim C6: when the source module is known and no unfolding hop occurs,
`analyse_import` raises `UnresolvedImportError` exactly when the export
name is in neither the exported names nor the submodules of the source
module; otherwise it returns no replacement without error. -/
theorem C6_unresolved_import_iff (all : Interfaces) (imp : NameImport)
    (src : ModuleInterface) (fuel : Nat)
    (hs : lookupPath all imp.module = some src)
    (hl : lookupStr src.imported_names imp.export_name = none) :
    (analyse_import all imp (fuel + 1) =
        some (.error (.unresolvedImport imp.export_name src.location.path)) ↔
      ¬(imp.export_name ∈ src.exported_names ∨ imp.export_name ∈ src.submodules)) ∧
    ((imp.export_name ∈ src.exported_names ∨ imp.export_name ∈ src.submodules) →
      analyse_import all imp (fuel + 1) = some (.ok none)) := by
  rw [analyse_import_no_hop all imp src fuel hs hl]
  by_cases hmem : imp.export_name ∈ src.exported_names ∨ imp.export_name ∈ src.submodules
  · rw [if_pos hmem]
    simp [hmem]
  · rw [if_neg hmem]
    simp [hmem]

/-- Witness for C6: `from a.b import DoesNotExist` where `a.b` exports only
`X` and `Y` raises `UnresolvedImportError`. -/
theorem C6_unresolved_import_iff_witness :
    lookupPath c6All c6Imp.module = some c6ABIface ∧
    analyse_import c6All c6Imp 1 =
      some (.error (.unresolvedImport "DoesNotExist" ["a", "b"])) :=
  ⟨rfl,
   ((C6_unresolved_import_iff c6All c6Imp c6ABIface 0 rfl rfl).1).mpr (by decide)⟩

/-- Claim C7: in enabled mode, for a location whose stored cache entry
parses, `get_interface` returns the stored interface reconstructed with
the queried location if and only if the stored timestamp is at least the
current modification time of the file; otherwise it returns nothing. -/
theorem C7_cache_validity_gate (store : List (ModulePath × Option CachedModuleInterface))
    (mtime : String → Int) (loc : ModuleLocation) (c : CachedModuleInterface)
    (hstore : (store.find? (fun p => p.1 = loc.path)).map (·.2) = some (some c)) :
    (get_interface store mtime loc = some (reconstruct_interface loc c) ↔
      c.timestamp ≥ mtime loc.file) ∧
    (c.timestamp < mtime loc.file → get_interface store mtime loc = none) := by
  simp only [get_interface, hstore]
  by_cases ht : c.timestamp ≥ mtime loc.file
  · rw [if_pos ht]
    refine ⟨by simp [ht], fun hlt => absurd ht (not_le.mpr hlt)⟩
  · rw [if_neg ht]
    refine ⟨by simp [ht], fun _ => rfl⟩

/-- Witness for C7: a stored entry with timestamp 100 against a current
modification time of 50 is returned, reconstructed with the queried
location. -/
theorem C7_cache_validity_gate_witness :
    (c7Store.find? (fun p => p.1 = c7Loc.path)).map (·.2) = some (some c7Entry) ∧
    get_interface c7Store (fun _ => 50) c7Loc =
      some (reconstruct_interface c7Loc c7Entry) :=
  ⟨rfl,
   ((C7_cache_validity_gate c7Store (fun _ => 50) c7Loc c7Entry rfl).1).mpr (by decide)⟩

/-- Claim C8: for package modules, interface construction fails with
`ShadowedExportError` exactly when a submodule name is also an exported
name, and every successfully constructed package interface has disjoint
submodules and exported names. -/
theorem C8_shadowed_exports_fatal (locations : List ModulePath) (loc : ModuleLocation)
    (imported_names : List (String × NameImport)) (exported_names : List String)
    (hinit : loc.is_init = true) :
    ((∃ s, s ∈ submodules_of locations loc.path ∧ s ∈ exported_names) ↔
      make_module_interface locations loc imported_names exported_names =
        .error (.shadowedExports
          ((submodules_of locations loc.path).filter (fun s => s ∈ exported_names))
          loc.path)) ∧
    (∀ i, make_module_interface locations loc imported_names exported_names = .ok i →
      ∀ s ∈ i.submodules, s ∉ i.exported_names) := by
  unfold make_module_interface
  rw [if_pos hinit]
  by_cases hsh :
      ((submodules_of locations loc.path).filter (fun s => s ∈ exported_names)).isEmpty
  · rw [if_pos hsh]
    rw [List.isEmpty_iff, List.filter_eq_nil_iff] at hsh
    constructor
    · constructor
      · rintro ⟨s, hs, hmem⟩
        exact absurd (by simpa using hmem) (hsh s hs)
      · intro h
        cases h
    · rintro i hi s hs hmem
      cases hi
      exact absurd (by simpa using hmem) (hsh s hs)
  · rw [if_neg hsh]
    constructor
    · constructor
      · intro _
        rfl
      · intro _
        rw [List.isEmpty_iff, List.filter_eq_nil_iff] at hsh
        push_neg at hsh
        obtain ⟨s, hs, hmem⟩ := hsh
        exact ⟨s, hs, by simpa using hmem⟩
    · intro i hi
      cases hi

/-- Witness for C5: after 37 iterations the loop is still running on the
cyclic map. -/
theorem C5_cyclic_reexport_no_termination_witness :
    analyse_import cycAll cycImp 37 = none :=
  C5_cyclic_reexport_no_termination 37

/-- Witness for C8: a package `p` with submodule `util` and an assignment
exporting `util` fails with `ShadowedExportError`. -/
theorem C8_shadowed_exports_fatal_witness :
    c8Loc.is_init = true ∧
    make_module_interface c8Locations c8Loc [] ["util"] =
      .error (.shadowedExports ["util"] ["p"]) :=
  ⟨rfl,
   ((C8_shadowed_exports_fatal c8Locations c8Loc [] ["util"] rfl).1).mp
     ⟨"util", by decide, by decide⟩⟩

/-- Claim C9: in a freshly extracted package interface, no imported-name
entry has an export name belonging to the package submodules: such imports
are dropped by the construction. -/
theorem C9_init_drops_submodule_imports (locations : List ModulePath)
    (loc : ModuleLocation) (imported_names : List (String × NameImport))
    (exported_names : List String) (i : ModuleInterface)
    (hinit : loc.is_init = true)
    (hok : make_module_interface locations loc imported_names exported_names = .ok i) :
    ∀ p ∈ i.imported_names, p.2.export_name ∉ i.submodules := by
  simp only [make_module_interface, hinit, if_true] at hok
  split at hok
  · cases hok
    intro p hp
    have hm := List.mem_filter.mp hp
    simpa using hm.2
  · cases hok

/-- Witness for C9: the `__init__` of `a` imported its submodule `b`; the
constructed interface drops it, and its remaining import of `Z` does not
target a submodule. -/
theorem C9_init_drops_submodule_imports_witness :
    make_module_interface c9Locations c9Loc c9Imported [] = .ok c9Iface ∧
    ("Z", (⟨["q"], "Z", "Z"⟩ : NameImport)).2.export_name ∉ c9Iface.submodules :=
  ⟨rfl,
   C9_init_drops_submodule_imports c9Locations c9Loc c9Imported [] c9Iface rfl rfl
     ("Z", ⟨["q"], "Z", "Z"⟩) (by decide)⟩

/-- `dict.pop` keeps the name-bind precondition: a popped value satisfies
it against its key, and the remaining dict still satisfies it. -/
theorem popChange_preserves (changes : ModuleReplacements) (k : NameImport)
    (hpre : ∀ p ∈ changes, p.2.import_name = p.1.import_name) :
    (∀ n, (popChange changes k).1 = some n → n.import_name = k.import_name) ∧
    (∀ p ∈ (popChange changes k).2, p.2.import_name = p.1.import_name) := by
  induction changes with
  | nil => simp [popChange]
  | cons c rest ih =>
    obtain ⟨o, n⟩ := c
    have hpre_rest : ∀ p ∈ rest, p.2.import_name = p.1.import_name :=
      fun p hp => hpre p (List.mem_cons_of_mem _ hp)
    by_cases ho : o = k
    · rw [show popChange ((o, n) :: rest) k = (some n, rest) from by
        simp [popChange, ho]]
      refine ⟨?_, hpre_rest⟩
      rintro n2 hn2
      cases hn2
      rw [← ho]
      exact hpre (o, n) (List.mem_cons_self _ _)
    · rw [show popChange ((o, n) :: rest) k =
          ((popChange rest k).1, (o, n) :: (popChange rest k).2) from by
        simp [popChange, ho]]
      refine ⟨(ih hpre_rest).1, ?_⟩
      intro p hp
      rw [List.mem_cons] at hp
      rcases hp with hp | hp
      · subst hp
        exact hpre (o, n) (List.mem_cons_self _ _)
      · exact (ih hpre_rest).2 p hp

/-- Claim C10: if every requested replacement preserves the local bound
name (as the resolver guarantees), the name-bind assertion of the import
rewriter never fires: `filter_import_names` always succeeds. -/
theorem C10_name_bind_assertion_unreachable (names : List (Option NameImport)) :
    ∀ (changes : ModuleReplacements),
      (∀ p ∈ changes, p.2.import_name = p.1.import_name) →
      ∃ r, filter_import_names changes names = .ok r := by
  induction names with
  | nil => exact fun changes _ => ⟨([], [], changes), rfl⟩
  | cons a rest ih =>
    intro changes hpre
    cases a with
    | none =>
      obtain ⟨r, hr⟩ := ih changes hpre
      exact ⟨(none :: r.1, r.2.1, r.2.2), by simp only [filter_import_names, hr]⟩
    | some ni =>
      have hpres := popChange_preserves changes ni hpre
      rcases hp : popChange changes ni with ⟨fst, changes1⟩
      have hpre1 : ∀ p ∈ changes1, p.2.import_name = p.1.import_name := by
        have h2 := hpres.2
        rw [hp] at h2
        exact h2
      obtain ⟨r, hr⟩ := ih changes1 hpre1
      cases fst with
      | none =>
        exact ⟨(some ni :: r.1, r.2.1, r.2.2), by
          simp only [filter_import_names, hp, hr]⟩
      | some repl =>
        have heq : repl.import_name = ni.import_name := by
          have h1 := hpres.1 repl
          rw [hp] at h1
          exact h1 rfl
        exact ⟨(r.1, repl :: r.2.1, r.2.2), by
          simp only [filter_import_names, hp, heq, if_pos, hr]⟩

/-- Witness for C10: a name-preserving replacement of `from a.c import X`
by `from a.b import X` is applied without tripping the assertion. -/
theorem C10_name_bind_assertion_unreachable_witness :
    (∀ p ∈ c10Changes, p.2.import_name = p.1.import_name) ∧
    ∃ r, filter_import_names c10Changes c10Names = .ok r :=
  ⟨by decide, C10_name_bind_assertion_unreachable c10Names c10Changes (by decide)⟩
